import Mathlib

/-!
Shallow embedding of the spatial-simulation core of `src/gemrb/core/Map.cpp`
(GemRB): the TileProps packed raster, the search-map point/radius/line
queries, the footprint painter, the fog-of-war bitmaps and the wall-polygon
occlusion partitioning.  Machine integers are modelled as `Nat`/`Int` with
explicit masking where the C++ width matters.
-/

namespace GemRB

/-- Point with signed integer coordinates (GemRB `BasePoint`/`Point`). -/
structure IntPoint where
  x : Int
  y : Int
deriving DecidableEq

/-- Size of a raster (GemRB `Size`, signed `w`/`h` as in the C++). -/
structure GSize where
  w : Int
  h : Int
deriving DecidableEq

/-- Size member test, from `Size::PointInside`: `p.x >= 0 && p.x < w && p.y >= 0 && p.y < h`. -/
def GSize.pointInside (s : GSize) (p : IntPoint) : Bool :=
  decide (0 ≤ p.x) && decide (p.x < s.w) && decide (0 ≤ p.y) && decide (p.y < s.h)

/-- Conversion of a C++ `int` value to `uint32_t` (mod 2^32). -/
def toU32 (z : Int) : Nat := (z % 4294967296).toNat

/-- GemRB `Clamp(n, lower, upper) = max(lower, min(n, upper))` on unsigned values. -/
def clampNat (n lower upper : Nat) : Nat := max lower (min n upper)

/-- Modelled from the spec: the `PathMapFlags` bit values.  The enum is declared in
`Map.h`, which is not under `src/`; the spec enumerates the passability classes
(impassable, passable, travel-region, no-line-of-sight, side-wall, door-states,
actor-occupied) as independent bit flags of one stored byte. -/
def IMPASSABLE : Nat := 0

/-- Passable flag bit (see `IMPASSABLE` for the modelling note). -/
def PASSABLE : Nat := 1

/-- Travel-region flag bit. -/
def TRAVEL : Nat := 2

/-- No-line-of-sight flag bit. -/
def NO_SEE : Nat := 4

/-- Side-wall flag bit (blocks sight but not necessarily movement). -/
def SIDEWALL : Nat := 8

/-- Door-opaque flag bit. -/
def DOOR_OPAQUE : Nat := 16

/-- Door-impassable flag bit. -/
def DOOR_IMPASSABLE : Nat := 32

/-- Player-character occupancy flag bit. -/
def PC : Nat := 64

/-- Non-player-character occupancy flag bit. -/
def NPC : Nat := 128

/-- Actor occupancy mask: `PC | NPC`. -/
def ACTOR : Nat := PC ||| NPC

/-- Mask of the non-actor flag bits (`NOTACTOR` in the enum): door and area bits. -/
def NOTACTOR : Nat :=
  DOOR_OPAQUE ||| DOOR_IMPASSABLE ||| PASSABLE ||| TRAVEL ||| NO_SEE ||| SIDEWALL

/-- Unmarked searchmap value, an alias for the all-clear byte. -/
def UNMARKED : Nat := 0

/-- Complement of a flag byte inside the 8-bit `PathMapFlags` carrier
(the C++ `~flag` on the `uint8_t`-based enum). -/
def byteNot (m : Nat) : Nat := 255 ^^^ m

/-- `MAX_CIRCLESIZE` constant from `Map.cpp`. -/
def MAX_CIRCLESIZE : Nat := 8

/-- Modelled from the spec: the four packed sub-fields of a `TileProps` cell.
The shift/mask constants are declared in `Map.h` (not under `src/`); the spec
describes one packed 32-bit record with four independently addressable byte
sub-fields (search map, material, elevation, lighting). -/
def searchMapShift : Nat := 0

/-- Material sub-field shift (see `searchMapShift` for the modelling note). -/
def materialMapShift : Nat := 8

/-- Elevation sub-field shift. -/
def heightMapShift : Nat := 16

/-- Lighting sub-field shift. -/
def lightMapShift : Nat := 24

/-- Search-map sub-field mask. -/
def searchMapMask : Nat := 255 <<< searchMapShift

/-- Material sub-field mask. -/
def materialMapMask : Nat := 255 <<< materialMapShift

/-- Elevation sub-field mask. -/
def heightMapMask : Nat := 255 <<< heightMapShift

/-- Lighting sub-field mask. -/
def lightMapMask : Nat := 255 <<< lightMapShift

/-- Full 32-bit mask, for the C++ `~mask` complement on `uint32_t`. -/
def u32Mask : Nat := 4294967295

/-- Modelled from the spec: the documented per-field default values returned by
out-of-bounds queries.  The constants are declared in `Map.h` (not under
`src/`); the spec only requires that each field has one fixed documented
default, and an impassable search-map default is what keeps the footprint
painter from writing outside the raster. -/
def defaultSearchMap : Nat := IMPASSABLE

/-- Default material value for out-of-bounds queries (see `defaultSearchMap`). -/
def defaultMaterial : Nat := 0

/-- Default elevation byte for out-of-bounds queries. -/
def defaultElevation : Nat := 0

/-- Default lighting index for out-of-bounds queries. -/
def defaultLighting : Nat := 0

/-- The four addressable sub-fields of a cell (`TileProps::Property`). -/
inductive Property where
  | SEARCH_MAP
  | MATERIAL
  | ELEVATION
  | LIGHTING
deriving DecidableEq

/-- The TileProps packed raster: a fixed size and one packed 32-bit word per
cell.  The C++ stores the words in a row-major pixel buffer; cells are
modelled as a function so that the per-cell masked read-modify-writes are
explicit. -/
structure TileProps where
  size : GSize
  cells : IntPoint → Nat

/-- `TileProps::SetTileProp`: masked read-modify-write of one sub-field of one
cell; a no-op when the point is outside the raster bounds.  The `val`
parameter is a `uint8_t`, hence the `% 256`. -/
def setTileProp (t : TileProps) (p : IntPoint) (prop : Property) (val : Nat) : TileProps :=
  if t.size.pointInside p then
    let v := val % 256
    let write := fun (c : Nat) =>
      match prop with
      | .SEARCH_MAP => (c &&& (u32Mask ^^^ searchMapMask)) ||| (v <<< searchMapShift)
      | .MATERIAL => (c &&& (u32Mask ^^^ materialMapMask)) ||| (v <<< materialMapShift)
      | .ELEVATION => (c &&& (u32Mask ^^^ heightMapMask)) ||| (v <<< heightMapShift)
      | .LIGHTING => (c &&& (u32Mask ^^^ lightMapMask)) ||| (v <<< lightMapShift)
    { t with cells := fun q => if q = p then write (t.cells q) else t.cells q }
  else t

/-- `TileProps::QueryTileProp`: masked read of one sub-field of one cell; the
documented per-field default when the point is outside the raster bounds. -/
def queryTileProp (t : TileProps) (p : IntPoint) (prop : Property) : Nat :=
  if t.size.pointInside p then
    let c := t.cells p
    match prop with
    | .SEARCH_MAP => (c &&& searchMapMask) >>> searchMapShift
    | .MATERIAL => (c &&& materialMapMask) >>> materialMapShift
    | .ELEVATION => (c &&& heightMapMask) >>> heightMapShift
    | .LIGHTING => (c &&& lightMapMask) >>> lightMapShift
  else
    match prop with
    | .SEARCH_MAP => defaultSearchMap
    | .MATERIAL => defaultMaterial
    | .ELEVATION => defaultElevation
    | .LIGHTING => defaultLighting

/-- `TileProps::QuerySearchMap`: the search-map byte of a cell as flags. -/
def querySearchMap (t : TileProps) (p : IntPoint) : Nat :=
  queryTileProp t p .SEARCH_MAP

/-- The documented default of each field, for stating the out-of-bounds rule. -/
def defaultOf : Property → Nat
  | .SEARCH_MAP => defaultSearchMap
  | .MATERIAL => defaultMaterial
  | .ELEVATION => defaultElevation
  | .LIGHTING => defaultLighting

/-- Modelled from the spec: `PlotCircle` (Geometry.cpp, not under `src/`).
The spec describes a scanline-decomposed disc produced by the midpoint circle
algorithm as (right, left) row span pairs with equal `y` and `p2.x ≤ p1.x`;
each row `dy ∈ [-r, r]` carries the span of half-width `⌊√(r² - dy²)⌋`. -/
def plotCircle (c : IntPoint) (r : Nat) : List (IntPoint × IntPoint) :=
  (List.range (2 * r + 1)).map (fun i =>
    let dy : Int := (i : Int) - (r : Int)
    let hw : Nat := Nat.sqrt (r * r - dy.natAbs * dy.natAbs)
    (⟨c.x + hw, c.y + dy⟩, ⟨c.x - hw, c.y + dy⟩))

/-- Cells of one (right, left) span pair: `x` runs from `p2.x` up to `p1.x`. -/
def spanCells (pr : IntPoint × IntPoint) : List IntPoint :=
  (List.range ((pr.1.x - pr.2.x + 1).toNat)).map (fun i => ⟨pr.2.x + i, pr.1.y⟩)

/-- All cells of the disc of radius `r` around `c`, row by row, as the two
nested loops of the C++ visit them. -/
def discCells (c : IntPoint) (r : Nat) : List IntPoint :=
  ((plotCircle c r).map spanCells).flatten

/-- Radius used by the footprint painter: `Clamp(blocksize, 1, MAX_CIRCLESIZE) - 1`
(`TileProps::PaintSearchMap`, circle form). -/
def paintRadius (blocksize : Nat) : Nat := clampNat blocksize 1 MAX_CIRCLESIZE - 1

/-- Radius used by the blocking radius query: `Clamp(size, 2, MAX_CIRCLESIZE) - 2`
(`Map::GetBlockedInRadiusTile`). -/
def blockRadius (size : Nat) : Nat := clampNat size 2 MAX_CIRCLESIZE - 2

/-- Per-cell body of the circle form of `TileProps::PaintSearchMap`
(the `PaintIfPassable` lambda): if the cell's search-map byte is not fully
impassable, replace it by `(mapval & NOTACTOR) | value`.  The C++ write does
not re-check bounds; with the impassable out-of-bounds default the guard
already skips every out-of-bounds cell, and the raw row-major write is
modelled as a plain cell update. -/
def paintIfPassable (value : Nat) (t : TileProps) (pos : IntPoint) : TileProps :=
  let mapval := querySearchMap t pos
  if mapval = IMPASSABLE then t
  else
    let newVal := (mapval &&& NOTACTOR) ||| value
    { t with
      cells := fun q =>
        if q = pos then
          (t.cells pos &&& (u32Mask ^^^ searchMapMask)) ||| (newVal <<< searchMapShift)
        else t.cells q }

/-- Circle form of `TileProps::PaintSearchMap`: stamp `value` over the disc of
radius `paintRadius blocksize` around `p`, skipping fully impassable cells. -/
def paintSearchMapCircle (t : TileProps) (p : IntPoint) (blocksize : Nat) (value : Nat) :
    TileProps :=
  (discCells p (paintRadius blocksize)).foldl (paintIfPassable value) t

/-- Value transformation of `Map::GetBlockedTile` (point form) on the queried
search-map byte: travel implies passable; door-impassable or actor clears
passable; door-opaque collapses the result to exactly the side-wall flag. -/
def blockedPointFixups (v : Nat) : Nat :=
  let r1 := if v &&& TRAVEL ≠ 0 then v ||| PASSABLE else v
  let r2 := if r1 &&& (DOOR_IMPASSABLE ||| ACTOR) ≠ 0 then r1 &&& byteNot PASSABLE else r1
  if r2 &&& DOOR_OPAQUE ≠ 0 then SIDEWALL else r2

/-- `Map::GetBlockedTile` (point form, tile coordinates). -/
def getBlockedTile (t : TileProps) (p : IntPoint) : Nat :=
  blockedPointFixups (querySearchMap t p)

/-- Final flag-combination rules shared verbatim by `Map::GetBlockedInRadiusTile`,
`Map::GetBlockedInLine` and `Map::GetBlockedInLineTile` after their OR
accumulation: door-impassable, actor or side-wall clears passable;
door-opaque collapses the result to exactly the side-wall flag. -/
def blockedFixups (ret : Nat) : Nat :=
  let r1 := if ret &&& (DOOR_IMPASSABLE ||| ACTOR ||| SIDEWALL) ≠ 0
    then ret &&& byteNot PASSABLE else ret
  if r1 &&& DOOR_OPAQUE ≠ 0 then SIDEWALL else r1

/-- The OR accumulation loop shared by the radius and line queries: visit the
cells in order, OR the per-cell flags of `f` into `acc`, and abandon the
accumulation (`none`, the early `return PathMapFlags::IMPASSABLE`) when
`stop` is set and a visited cell is fully impassable. -/
def accumulateBlocked (f : IntPoint → Nat) (stop : Bool) :
    List IntPoint → Nat → Option Nat
  | [], acc => some acc
  | p :: rest, acc =>
    let flags := f p
    if stop && flags == IMPASSABLE then none
    else accumulateBlocked f stop rest (acc ||| flags)

/-- `Map::GetBlockedInRadiusTile`: OR the point-query flags over the disc of
radius `blockRadius size` around `tp` (the degenerate radius visits `tp`
alone), then apply the shared flag-combination rules; an early exit yields
fully impassable. -/
def getBlockedInRadiusTile (t : TileProps) (tp : IntPoint) (size : Nat) (stop : Bool) : Nat :=
  let r := blockRadius size
  let cells := if r = 0 then spanCells (tp, tp) else discCells tp r
  match accumulateBlocked (getBlockedTile t) stop cells IMPASSABLE with
  | none => IMPASSABLE
  | some ret => blockedFixups ret

/-- Per-step flag lookup of `Map::GetBlockedInLine`: with `stopOnImpassable`
and a caller the wider radius check of the caller's circle size is used,
otherwise the plain point query. -/
def lineStepFlags (t : TileProps) (stop : Bool) (caller : Option Nat) (p : IntPoint) : Nat :=
  match caller, stop with
  | some circleSize, true => getBlockedInRadiusTile t p circleSize false
  | _, _ => getBlockedTile t p

/-- Accumulation of `Map::GetBlockedInLine` over its visited tile sequence.
The C++ generates the sequence by stepping from source to destination in
float increments (`NormalizeDeltas` over `float_t`, scaled by the mover's
speed); that floating-point traversal is abstracted as the `visited` list,
while the per-step lookup, the early impassable exit and the final
flag-combination rules follow the source. -/
def getBlockedInLineOver (t : TileProps) (visited : List IntPoint) (stop : Bool)
    (caller : Option Nat) : Nat :=
  match accumulateBlocked (lineStepFlags t stop caller) stop visited IMPASSABLE with
  | none => IMPASSABLE
  | some ret => blockedFixups ret

/-- Modelled from the spec: navmap-to-searchmap coordinate conversion (the
`SearchmapPoint(NavmapPoint)` constructor lives in a header outside `src/`);
the spec fixes one cell per 16x12-pixel tile-region, with C++ truncating
integer division. -/
def smpOfNav (p : IntPoint) : IntPoint := ⟨Int.tdiv p.x 16, Int.tdiv p.y 12⟩

/-- `Map::GetBlocked` (navmap point form). -/
def getBlocked (t : TileProps) (p : IntPoint) : Nat :=
  getBlockedTile t (smpOfNav p)

/-- `Map::GetBlockedInRadius` (navmap form). -/
def getBlockedInRadius (t : TileProps) (p : IntPoint) (size : Nat) (stop : Bool) : Nat :=
  getBlockedInRadiusTile t (smpOfNav p) size stop

/-- `Map::GetBlocked(p, size)`: `-1` selects the point query, any other size
the radius query (the `int` size converts to `unsigned` at the call). -/
def getBlockedSized (t : TileProps) (p : IntPoint) (size : Int) : Nat :=
  if size = -1 then getBlocked t p
  else getBlockedInRadius t p (toU32 size) false

/-- The search-map byte of any cell is below 256. -/
theorem querySearchMap_lt (t : TileProps) (p : IntPoint) : querySearchMap t p < 256 := by
  unfold querySearchMap queryTileProp
  split
  · have h : t.cells p &&& searchMapMask ≤ searchMapMask := Nat.and_le_right
    simp only [searchMapMask, searchMapShift] at h ⊢
    omega
  · decide

set_option maxRecDepth 4096 in
/-- Bounded bit fact: the point fixups clear the passable flag whenever the
queried byte carries a door-impassable or actor flag. -/
theorem pointFixups_clear_passable :
    ∀ v < 256, v &&& (DOOR_IMPASSABLE ||| ACTOR) ≠ 0 →
      blockedPointFixups v &&& PASSABLE = 0 := by decide

set_option maxRecDepth 4096 in
/-- Bounded bit fact: the point fixups collapse any byte carrying the
door-opaque flag to exactly the side-wall flag. -/
theorem pointFixups_opaque_collapse :
    ∀ v < 256, v &&& DOOR_OPAQUE ≠ 0 → blockedPointFixups v = SIDEWALL := by decide

set_option maxRecDepth 8192 in
/-- Bounded bit fact: on any value produced by the point fixups, the shared
accumulation fixups only clear the passable flag when the side-wall flag is
present. -/
theorem fixups_of_pointFixups :
    ∀ v < 256, blockedFixups (blockedPointFixups v) =
      (if blockedPointFixups v &&& SIDEWALL ≠ 0
        then blockedPointFixups v &&& byteNot PASSABLE
        else blockedPointFixups v) := by decide

theorem blockedFixups_clear_passable (acc : Nat)
    (h : acc &&& (DOOR_IMPASSABLE ||| ACTOR ||| SIDEWALL) ≠ 0) :
    blockedFixups acc &&& PASSABLE = 0 := by
  have h254 : byteNot PASSABLE &&& PASSABLE = 0 := by decide
  unfold blockedFixups
  simp only [if_pos h]
  split
  · decide
  · rw [Nat.and_assoc, h254, Nat.and_zero]

theorem blockedFixups_opaque_collapse (acc : Nat) (h : acc &&& DOOR_OPAQUE ≠ 0) :
    blockedFixups acc = SIDEWALL := by
  have h254 : byteNot PASSABLE &&& DOOR_OPAQUE = DOOR_OPAQUE := by decide
  unfold blockedFixups
  split
  · have : (acc &&& byteNot PASSABLE) &&& DOOR_OPAQUE ≠ 0 := by
      rw [Nat.and_assoc, h254]
      exact h
    simp only [if_pos this]
  · simp only [if_pos h]

/-- Counterexample store: a 1x1 raster whose sole cell carries both the
passable and the side-wall search-map bits. -/
def cxStore9 : TileProps := ⟨⟨1, 1⟩, fun _ => PASSABLE ||| SIDEWALL⟩

/-- C1, counterexample: the point query (`Map::GetBlockedTile`) returns a value
that still carries the passable flag although the accumulated (single-cell)
flags carry the side-wall flag, so the claimed clear-set
door-impassable/actor/side-wall does not hold on the point path. -/
theorem c1_point_sidewall_keeps_passable :
    getBlockedTile cxStore9 ⟨0, 0⟩ &&& SIDEWALL ≠ 0 ∧
      getBlockedTile cxStore9 ⟨0, 0⟩ &&& PASSABLE ≠ 0 := by decide

/-- C1, amended: after OR-accumulation the radius and line queries
(whose results are `blockedFixups` of their accumulated flags) clear the
passable flag whenever door-impassable, actor or side-wall is present, while
the point query clears it whenever door-impassable or actor is present (its
clear-set does not include side-wall). -/
theorem c1_passable_cleared (t : TileProps) (p : IntPoint) (acc : Nat) :
    (querySearchMap t p &&& (DOOR_IMPASSABLE ||| ACTOR) ≠ 0 →
      getBlockedTile t p &&& PASSABLE = 0) ∧
    (acc &&& (DOOR_IMPASSABLE ||| ACTOR ||| SIDEWALL) ≠ 0 →
      blockedFixups acc &&& PASSABLE = 0) := by
  refine ⟨fun h => ?_, blockedFixups_clear_passable acc⟩
  exact pointFixups_clear_passable _ (querySearchMap_lt t p) h

/-- Witness store for the amended C1: its sole cell carries the
door-impassable flag. -/
def cxStoreDoor : TileProps := ⟨⟨1, 1⟩, fun _ => DOOR_IMPASSABLE ||| PASSABLE⟩

/-- C1 witness: the amended theorem applied at a concrete store, point and
accumulated value. -/
theorem c1_passable_cleared_witness :
    (querySearchMap cxStoreDoor ⟨0, 0⟩ &&& (DOOR_IMPASSABLE ||| ACTOR) ≠ 0 ∧
      getBlockedTile cxStoreDoor ⟨0, 0⟩ &&& PASSABLE = 0) ∧
    ((SIDEWALL ||| PASSABLE) &&& (DOOR_IMPASSABLE ||| ACTOR ||| SIDEWALL) ≠ 0 ∧
      blockedFixups (SIDEWALL ||| PASSABLE) &&& PASSABLE = 0) :=
  ⟨⟨by decide, (c1_passable_cleared cxStoreDoor ⟨0, 0⟩ (SIDEWALL ||| PASSABLE)).1 (by decide)⟩,
    ⟨by decide, (c1_passable_cleared cxStoreDoor ⟨0, 0⟩ (SIDEWALL ||| PASSABLE)).2 (by decide)⟩⟩

/-- C2, counterexample: on a cell carrying passable and side-wall together,
the point form `GetBlocked(p, -1)` and the degenerate radius form
`GetBlocked(p, 1)` return different values (9 versus 8). -/
theorem c2_point_vs_size1_differ :
    getBlockedSized cxStore9 ⟨0, 0⟩ (-1) ≠ getBlockedSized cxStore9 ⟨0, 0⟩ 1 := by decide

/-- C2, amended: `BlockedAt(p, -1)` and `BlockedAt(p, 1)` agree except that
the degenerate radius query additionally applies the accumulation
flag-combination rules, clearing the passable flag when the side-wall flag is
present in the point result. -/
theorem c2_size1_vs_point (t : TileProps) (p : IntPoint) :
    getBlockedSized t p 1 =
      (if getBlockedSized t p (-1) &&& SIDEWALL ≠ 0
        then getBlockedSized t p (-1) &&& byteNot PASSABLE
        else getBlockedSized t p (-1)) := by
  have h1 : getBlockedSized t p (-1) = getBlockedTile t (smpOfNav p) := by
    simp [getBlockedSized, getBlocked]
  have hr : blockRadius (toU32 1) = 0 := by decide
  have h2 : getBlockedSized t p 1 = blockedFixups (getBlockedTile t (smpOfNav p)) := by
    have hne : ((1 : Int) = -1) = False := by simp
    simp only [getBlockedSized, hne, if_false, getBlockedInRadius, getBlockedInRadiusTile,
      hr, if_pos rfl, spanCells, Int.sub_self, zero_add, Int.toNat_one, List.range_succ,
      List.range_zero, List.nil_append, List.map_cons, List.map_nil, accumulateBlocked,
      Nat.cast_zero, add_zero, Bool.false_and, Bool.false_eq_true, if_false]
    simp only [IMPASSABLE, Nat.zero_or]
  rw [h1, h2, getBlockedTile]
  exact fixups_of_pointFixups _ (querySearchMap_lt t _)

/-- C4, part store: a 1x1 raster whose sole cell carries the door-opaque and
passable search-map bits. -/
def cxStoreOpaque : TileProps := ⟨⟨1, 1⟩, fun _ => DOOR_OPAQUE ||| PASSABLE⟩

/-- C4: on every accumulation path the door-opaque flag collapses the result
to exactly the side-wall flag: the point query does so whenever the queried
byte carries door-opaque, and the radius and line queries (whose results are
`blockedFixups` of their accumulated flags) do so whenever the accumulated
flags carry door-opaque. -/
theorem c4_opaque_collapses (t : TileProps) (p : IntPoint) (acc : Nat) :
    (querySearchMap t p &&& DOOR_OPAQUE ≠ 0 → getBlockedTile t p = SIDEWALL) ∧
    (acc &&& DOOR_OPAQUE ≠ 0 → blockedFixups acc = SIDEWALL) := by
  refine ⟨fun h => ?_, blockedFixups_opaque_collapse acc⟩
  exact pointFixups_opaque_collapse _ (querySearchMap_lt t p) h

/-- C4 witness: the collapse theorem applied at a concrete store, point and
accumulated value. -/
theorem c4_opaque_collapses_witness :
    (querySearchMap cxStoreOpaque ⟨0, 0⟩ &&& DOOR_OPAQUE ≠ 0 ∧
      getBlockedTile cxStoreOpaque ⟨0, 0⟩ = SIDEWALL) ∧
    (DOOR_OPAQUE &&& DOOR_OPAQUE ≠ 0 ∧ blockedFixups DOOR_OPAQUE = SIDEWALL) :=
  ⟨⟨by decide, (c4_opaque_collapses cxStoreOpaque ⟨0, 0⟩ DOOR_OPAQUE).1 (by decide)⟩,
    ⟨by decide, (c4_opaque_collapses cxStoreOpaque ⟨0, 0⟩ DOOR_OPAQUE).2 (by decide)⟩⟩

/-- C9: the footprint painter stamps a disc of radius `clamp(size - 1, 0, 7)`
while the blocking radius query scans a disc of radius `clamp(size - 2, 0, 6)`
(`MAX_CIRCLESIZE = 8`); the asymmetric offsets hold for every requested size,
including the clamped extremes. -/
theorem c9_asymmetric_offsets (s : Nat) :
    (paintRadius s : Int) = max (min ((s : Int) - 1) ((MAX_CIRCLESIZE : Int) - 1)) 0 ∧
    (blockRadius s : Int) = max (min ((s : Int) - 2) ((MAX_CIRCLESIZE : Int) - 2)) 0 := by
  unfold paintRadius blockRadius clampNat MAX_CIRCLESIZE
  constructor <;> omega

/-- C3: for every point outside the TileProps bounds, `QueryTileProp` returns
the documented default of the requested field and `SetTileProp` leaves the
entire store unchanged. -/
theorem c3_out_of_bounds_degrades (t : TileProps) (p : IntPoint) (prop : Property) (val : Nat)
    (h : t.size.pointInside p = false) :
    queryTileProp t p prop = defaultOf prop ∧ setTileProp t p prop val = t := by
  constructor
  · unfold queryTileProp defaultOf
    rw [h]
    cases prop <;> rfl
  · unfold setTileProp
    rw [h]
    rfl

/-- Witness store for out-of-bounds degradation: a 1x1 raster. -/
def cxStoreTiny : TileProps := ⟨⟨1, 1⟩, fun _ => 7⟩

/-- C3 witness: the out-of-bounds theorem applied at a concrete store, point
and field. -/
theorem c3_out_of_bounds_degrades_witness :
    cxStoreTiny.size.pointInside ⟨2, 3⟩ = false ∧
      (queryTileProp cxStoreTiny ⟨2, 3⟩ .SEARCH_MAP = defaultOf .SEARCH_MAP ∧
        setTileProp cxStoreTiny ⟨2, 3⟩ .SEARCH_MAP 5 = cxStoreTiny) :=
  ⟨by decide, c3_out_of_bounds_degrades cxStoreTiny ⟨2, 3⟩ .SEARCH_MAP 5 (by decide)⟩

/-- Value transformation of the `PaintIfPassable` lambda on the search-map
byte of the visited cell. -/
def paintVal (value x : Nat) : Nat :=
  if x = IMPASSABLE then x else (x &&& NOTACTOR) ||| value

/-- The occupancy values the painter is called with (`UNMARKED`, `PC`, `NPC`,
per the comment above the circle form of `TileProps::PaintSearchMap`). -/
def validPaintValue (v : Nat) : Prop := v = UNMARKED ∨ v = PC ∨ v = NPC

theorem validPaintValue_lt {v : Nat} (hv : validPaintValue v) : v < 256 := by
  rcases hv with h | h | h <;> subst h <;> decide

/-- Painting one cell changes only that cell's search-map byte, by the
`PaintIfPassable` transformation. -/
theorem querySearchMap_paintIfPassable (v : Nat) (hv : v < 256) (t : TileProps)
    (pos q : IntPoint) :
    querySearchMap (paintIfPassable v t pos) q =
      if q = pos then paintVal v (querySearchMap t q) else querySearchMap t q := by
  by_cases hm : querySearchMap t pos = IMPASSABLE
  · rw [paintIfPassable]
    simp only [hm, IMPASSABLE, if_pos rfl, paintVal]
    by_cases hq : q = pos
    · subst hq
      simp [hm, IMPASSABLE]
    · simp [hq]
  · have hlt : querySearchMap t pos < 256 := querySearchMap_lt t pos
    have hin : t.size.pointInside pos = true := by
      by_contra hni
      apply hm
      unfold querySearchMap queryTileProp
      simp only [Bool.not_eq_true] at hni
      rw [hni]
      rfl
    rw [paintIfPassable]
    rw [if_neg hm]
    by_cases hq : q = pos
    · subst hq
      have hmask : searchMapMask = 255 := by decide
      have hshift : searchMapShift = 0 := by decide
      have hN : NOTACTOR = 63 := by decide
      have hq256 : querySearchMap t q = t.cells q &&& 255 := by
        unfold querySearchMap queryTileProp
        rw [hin]
        simp only [hmask, hshift, Nat.shiftRight_zero, if_true]
      have hm2 : ¬(t.cells q &&& 255 = IMPASSABLE) := by rw [← hq256]; exact hm
      have hnv : (t.cells q &&& 255) &&& NOTACTOR ||| v < 256 := by
        have h1 : (t.cells q &&& 255) &&& NOTACTOR ≤ NOTACTOR := Nat.and_le_right
        have h2 : (256 : Nat) = 2 ^ 8 := by norm_num
        rw [h2]
        refine Nat.or_lt_two_pow ?_ (by omega)
        rw [hN] at h1 ⊢
        omega
      simp only [querySearchMap, queryTileProp, hin, hmask, hshift, Nat.shiftLeft_zero,
        Nat.shiftRight_zero, if_true, eq_self_iff_true, hq256]
      have hz : (u32Mask ^^^ 255) &&& 255 = 0 := by decide
      rw [Nat.and_distrib_right]
      rw [Nat.and_assoc]
      rw [hz]
      rw [Nat.and_zero]
      rw [Nat.zero_or]
      rw [paintVal]
      rw [if_neg hm2]
      rw [Nat.and_pow_two_sub_one_eq_mod (t.cells q &&& 255 &&& NOTACTOR ||| v) 8]
      rw [Nat.mod_eq_of_lt hnv]
    · unfold querySearchMap queryTileProp
      simp only [if_neg hq]

set_option maxRecDepth 16384 in
/-- Folding the per-cell painter over a cell list changes exactly the listed
cells, each by the idempotent `paintVal` transformation. -/
theorem querySearchMap_paintFold (v : Nat) (hv : validPaintValue v) (cells : List IntPoint)
    (t : TileProps) (q : IntPoint) :
    querySearchMap (cells.foldl (paintIfPassable v) t) q =
      if q ∈ cells then paintVal v (querySearchMap t q) else querySearchMap t q := by
  have hidem : ∀ x < 256, paintVal v (paintVal v x) = paintVal v x := by
    rcases hv with h | h | h <;> subst h <;> decide
  have hvlt := validPaintValue_lt hv
  induction cells generalizing t with
  | nil => simp
  | cons c rest ih =>
    simp only [List.foldl_cons, List.mem_cons]
    rw [ih (paintIfPassable v t c)]
    rw [querySearchMap_paintIfPassable v hvlt t c q]
    by_cases hqc : q = c
    · subst hqc
      by_cases hqr : q ∈ rest
      · simp only [hqr, if_true, if_pos rfl, true_or, if_pos]
        exact hidem _ (querySearchMap_lt t q)
      · simp [hqr]
    · by_cases hqr : q ∈ rest
      · simp [hqc, hqr]
      · simp [hqc, hqr]

set_option maxRecDepth 16384 in
/-- Paint bound: `paintVal` keeps bytes below 256 for the painter's values. -/
theorem paintVal_lt (v : Nat) (hv : validPaintValue v) :
    ∀ x < 256, paintVal v x < 256 := by
  rcases hv with h | h | h <;> subst h <;> decide

/-- The actor-shaped state the footprint paths read: searchmap stamp position,
footprint circle size, PC/NPC class and the `BlocksSearchMap` predicate. -/
structure MovableM where
  smPos : IntPoint
  circleSize : Nat
  isPC : Bool
  blocker : Bool

/-- Occupancy flag chosen by `Map::BlockSearchMapFor`: `PC` for player
characters, `NPC` otherwise. -/
def actorFlag (a : MovableM) : Nat := if a.isPC then PC else NPC

/-- `Map::BlockSearchMapFor`: stamp the actor's occupancy flag over its
footprint disc. -/
def blockSearchMapFor (t : TileProps) (a : MovableM) : TileProps :=
  paintSearchMapCircle t a.smPos a.circleSize (actorFlag a)

/-- The cells of an actor's painted footprint disc. -/
def paintDisc (a : MovableM) : List IntPoint :=
  discCells a.smPos (paintRadius a.circleSize)

/-- `Map::ClearSearchMapFor`: stamp `UNMARKED` over the actor's footprint
disc, then re-stamp every nearby actor that blocks the search map.  The C++
gathers the neighbours with `GetAllActorsInRadius` (radius
`MAX_CIRCLE_SIZE * 3`, excluding the actor itself); that query lives outside
this file's scope and the neighbour list is passed explicitly. -/
def clearSearchMapFor (t : TileProps) (a : MovableM) (nearActors : List MovableM) : TileProps :=
  let t1 := paintSearchMapCircle t a.smPos a.circleSize UNMARKED
  nearActors.foldl (fun acc n => if n.blocker then blockSearchMapFor acc n else acc) t1

/-- Re-stamping neighbours whose footprints avoid `q` leaves `q` unchanged. -/
theorem clear_restamp_unchanged (nearActors : List MovableM) (t : TileProps) (q : IntPoint)
    (h : ∀ n ∈ nearActors, q ∉ paintDisc n) :
    querySearchMap
        (nearActors.foldl (fun acc n => if n.blocker then blockSearchMapFor acc n else acc) t)
        q = querySearchMap t q := by
  induction nearActors generalizing t with
  | nil => rfl
  | cons n rest ih =>
    simp only [List.foldl_cons]
    rw [ih]
    · by_cases hb : n.blocker
      · simp only [hb, if_true]
        rw [blockSearchMapFor, paintSearchMapCircle,
          querySearchMap_paintFold (actorFlag n) (by unfold actorFlag validPaintValue; split <;> simp)]
        have hn := h n (List.mem_cons_self n rest)
        rw [paintDisc] at hn
        rw [if_neg hn]
      · simp [hb]
    · intro m hm
      exact h m (List.mem_cons_of_mem n hm)

set_option maxRecDepth 16384 in
/-- Composite per-cell fact: clearing after blocking restores an
actor-bit-free byte. -/
theorem paintVal_clear_block (flag : Nat) (hf : flag = PC ∨ flag = NPC) :
    ∀ x < 256, x &&& ACTOR = 0 → paintVal UNMARKED (paintVal flag x) = x := by
  rcases hf with h | h <;> subst h <;> decide

/-- C5: blocking an actor's footprint and then clearing it restores the
search-map byte of every cell whose pre-paint value carries no actor
occupancy bit, provided no re-stamped neighbour's footprint disc covers the
cell. -/
theorem c5_block_then_clear_restores (t : TileProps) (a : MovableM)
    (nearActors : List MovableM) (q : IntPoint)
    (hNoActor : querySearchMap t q &&& ACTOR = 0)
    (hNoOverlap : ∀ n ∈ nearActors, q ∉ paintDisc n) :
    querySearchMap (clearSearchMapFor (blockSearchMapFor t a) a nearActors) q =
      querySearchMap t q := by
  have hflag : validPaintValue (actorFlag a) := by
    unfold actorFlag validPaintValue
    split <;> simp
  rw [clearSearchMapFor]
  rw [clear_restamp_unchanged nearActors _ q hNoOverlap]
  rw [paintSearchMapCircle, blockSearchMapFor, paintSearchMapCircle]
  rw [querySearchMap_paintFold UNMARKED (Or.inl rfl)]
  rw [querySearchMap_paintFold (actorFlag a) hflag]
  by_cases hd : q ∈ discCells a.smPos (paintRadius a.circleSize)
  · simp only [hd, if_true, if_pos]
    apply paintVal_clear_block (actorFlag a) _ _ (querySearchMap_lt t q) hNoActor
    unfold actorFlag
    split <;> simp
  · simp [hd]

/-- Concrete store, actor and neighbour for the C5 witness. -/
def cxStoreWalk : TileProps := ⟨⟨4, 4⟩, fun _ => PASSABLE⟩

/-- Concrete actor painting a single-cell footprint at (1,1). -/
def cxActorA : MovableM := ⟨⟨1, 1⟩, 1, true, true⟩

/-- Concrete neighbour painting a single-cell footprint at (3,3). -/
def cxActorB : MovableM := ⟨⟨3, 3⟩, 1, false, true⟩

/-- C5 witness: block-then-clear applied at a concrete store, actor,
neighbour list and cell. -/
theorem c5_block_then_clear_restores_witness :
    (querySearchMap cxStoreWalk ⟨1, 1⟩ &&& ACTOR = 0 ∧
      ∀ n ∈ [cxActorB], ⟨1, 1⟩ ∉ paintDisc n) ∧
    querySearchMap (clearSearchMapFor (blockSearchMapFor cxStoreWalk cxActorA) cxActorA
        [cxActorB]) ⟨1, 1⟩ = querySearchMap cxStoreWalk ⟨1, 1⟩ :=
  ⟨⟨by decide, by decide⟩,
    c5_block_then_clear_restores cxStoreWalk cxActorA [cxActorB] ⟨1, 1⟩ (by decide) (by decide)⟩

/-- Fog state of one map: the fog raster size (`Map::FogMapSize`), the
explored and visible bitmaps, and the tile properties and area-type flags the
line-of-sight sweep reads. -/
structure MapFog where
  fogSize : GSize
  explored : IntPoint → Bool
  visible : IntPoint → Bool
  tiles : TileProps
  outdoorArea : Bool
  cityArea : Bool

/-- Modelled from the spec: searchmap-tile-to-fog-cell conversion (the
`FogPoint` conversion constructor is declared in headers outside `src/`); the
spec fixes a ratio of two tile-cells per fog-cell. -/
def fogPointOfTile (p : IntPoint) : IntPoint := ⟨Int.tdiv p.x 2, Int.tdiv p.y 2⟩

/-- `Map::ExploreTile`: inside the fog raster, set the explored bit and, when
not fog-only, the visible bit of the fog cell; a no-op outside. -/
def exploreTile (m : MapFog) (fogP : IntPoint) (fogOnly : Bool) : MapFog :=
  if m.fogSize.pointInside fogP then
    let m1 := { m with explored := fun q => if q = fogP then true else m.explored q }
    if fogOnly then m1
    else { m1 with visible := fun q => if q = fogP then true else m1.visible q }
  else m

/-- Modelled from the spec: `Explore::MaxVisibility`, the maximum sight
radius, a fixed small constant of the process-wide `Explore` service (outside
`src/`). -/
def maxVisibility : Nat := 30

/-- The process-wide visibility-mask service: the perimeter count and the
precomputed radial mask offsets `VisibilityMasks[distance][perimeter]`. -/
structure Explore where
  visibilityPerimeter : Nat
  visibilityMasks : Nat → Nat → IntPoint

/-- One radial ray of `Map::ExploreMapChunk`: walk the mask offsets outward
from `pos`, tracking the blocked/side-wall/fog-only state exactly as the C++
inner loop does (`Pass` starts at 2; a side-wall grants one further cell; an
outdoor non-city impassable door reveals fog-only), exploring each visited
fog cell. -/
def exploreRay (ex : Explore) (pos : IntPoint) (los : Bool) (p : Nat) :
    Nat → Nat → Nat → Bool → Bool → Bool → MapFog → MapFog
  | 0, _, _, _, _, _, m => m
  | fuel + 1, i, pass, block, sidewall, fogOnly, m =>
    let mask := ex.visibilityMasks i p
    let tile : IntPoint := ⟨pos.x + mask.x, pos.y + mask.y⟩
    let fogTile := fogPointOfTile tile
    if !los then
      exploreRay ex pos los p fuel (i + 1) pass block sidewall fogOnly
        (exploreTile m fogTile fogOnly)
    else
      let st :=
        if !block then
          let ty := getBlockedTile m.tiles tile
          if ty &&& NO_SEE ≠ 0 then (true, sidewall, fogOnly)
          else if ty &&& SIDEWALL ≠ 0 then (block, true, fogOnly)
          else if sidewall then (true, sidewall, fogOnly)
          else if ty &&& DOOR_IMPASSABLE ≠ 0 && m.outdoorArea && !m.cityArea then
            (block, sidewall, true)
          else (block, sidewall, fogOnly)
        else (block, sidewall, fogOnly)
      if st.1 then
        if pass - 1 = 0 then m
        else
          exploreRay ex pos los p fuel (i + 1) (pass - 1) st.1 st.2.1 st.2.2
            (exploreTile m fogTile st.2.2)
      else
        exploreRay ex pos los p fuel (i + 1) pass st.1 st.2.1 st.2.2
          (exploreTile m fogTile st.2.2)

/-- The perimeter loop of `Map::ExploreMapChunk` (`while (p--)`), running one
ray per perimeter index from high to low. -/
def exploreChunkPerimeter (ex : Explore) (pos : IntPoint) (range : Nat) (los : Bool) :
    Nat → MapFog → MapFog
  | 0, m => m
  | p + 1, m =>
    exploreChunkPerimeter ex pos range los p
      (exploreRay ex pos los p range 0 2 false false false m)

/-- `Map::ExploreMapChunk`: clamp the range to the maximum visibility and run
every perimeter ray. -/
def exploreMapChunk (ex : Explore) (m : MapFog) (pos : IntPoint) (range : Nat)
    (los : Bool) : MapFog :=
  let range := if range > maxVisibility then maxVisibility else range
  exploreChunkPerimeter ex pos range los ex.visibilityPerimeter m

/-- `Map::FillExplored`: the explicit reset, filling the explored bitmap. -/
def fillExplored (m : MapFog) (explored : Bool) : MapFog :=
  { m with explored := fun _ => explored }

/-- `Map::UpdateFog`: clear the visible bitmap (unless in a cutscene) and run
one `ExploreMapChunk` sweep (with line of sight) per explore-capable sighted
actor.  Actor iteration, visual-range computation and spawn triggering are
abstracted as the (position, range) sweep list. -/
def updateFog (ex : Explore) (m : MapFog) (inCutscene : Bool)
    (sweeps : List (IntPoint × Nat)) : MapFog :=
  let m1 := if inCutscene then m else { m with visible := fun _ => false }
  sweeps.foldl (fun acc s => exploreMapChunk ex acc s.1 s.2 true) m1

/-- The fog operations outside an explicit reset: `ExploreTile`,
`ExploreMapChunk` and `UpdateFog` calls. -/
inductive FogOp where
  | tile (p : IntPoint) (fogOnly : Bool)
  | chunk (pos : IntPoint) (range : Nat) (los : Bool)
  | fog (inCutscene : Bool) (sweeps : List (IntPoint × Nat))

/-- Apply one fog operation. -/
def applyFogOp (ex : Explore) (m : MapFog) : FogOp → MapFog
  | .tile p fogOnly => exploreTile m p fogOnly
  | .chunk pos range los => exploreMapChunk ex m pos range los
  | .fog c sweeps => updateFog ex m c sweeps

theorem exploreTile_explored_mono (m : MapFog) (fogP : IntPoint) (fogOnly : Bool)
    (q : IntPoint) (h : m.explored q = true) :
    (exploreTile m fogP fogOnly).explored q = true := by
  unfold exploreTile
  split
  · split <;> simp only [] <;> split <;> simp [h]
  · exact h

theorem exploreRay_explored_mono (ex : Explore) (pos : IntPoint) (los : Bool) (p : Nat) :
    ∀ (fuel i pass : Nat) (block sidewall fogOnly : Bool) (m : MapFog) (q : IntPoint),
      m.explored q = true →
      (exploreRay ex pos los p fuel i pass block sidewall fogOnly m).explored q = true := by
  intro fuel
  induction fuel with
  | zero => intro i pass block sidewall fogOnly m q h; exact h
  | succ n ih =>
    intro i pass block sidewall fogOnly m q h
    rw [exploreRay]
    dsimp only
    repeat' split
    all_goals
      first
        | exact h
        | exact ih _ _ _ _ _ _ q (exploreTile_explored_mono m _ _ q h)

theorem exploreChunkPerimeter_explored_mono (ex : Explore) (pos : IntPoint) (range : Nat)
    (los : Bool) :
    ∀ (p : Nat) (m : MapFog) (q : IntPoint), m.explored q = true →
      (exploreChunkPerimeter ex pos range los p m).explored q = true := by
  intro p
  induction p with
  | zero => intro m q h; exact h
  | succ n ih =>
    intro m q h
    rw [exploreChunkPerimeter]
    exact ih _ q (exploreRay_explored_mono ex pos los n range 0 2 false false false m q h)

theorem exploreMapChunk_explored_mono (ex : Explore) (m : MapFog) (pos : IntPoint)
    (range : Nat) (los : Bool) (q : IntPoint) (h : m.explored q = true) :
    (exploreMapChunk ex m pos range los).explored q = true :=
  exploreChunkPerimeter_explored_mono ex pos _ los ex.visibilityPerimeter m q h

theorem updateFog_explored_mono (ex : Explore) (m : MapFog) (c : Bool)
    (sweeps : List (IntPoint × Nat)) (q : IntPoint) (h : m.explored q = true) :
    (updateFog ex m c sweeps).explored q = true := by
  rw [updateFog]
  have h1 : (if c then m else { m with visible := fun _ => false }).explored q = true := by
    split <;> exact h
  generalize (if c then m else { m with visible := fun _ => false }) = m1 at h1
  induction sweeps generalizing m1 with
  | nil => exact h1
  | cons s rest ih =>
    simp only [List.foldl_cons]
    exact ih _ (exploreMapChunk_explored_mono ex m1 s.1 s.2 true q h1)

/-- C6: the explored bitmap is monotone outside an explicit reset: for every
sequence of `ExploreTile`, `ExploreMapChunk` and `UpdateFog` operations, a
fog cell explored before the sequence is still explored after it. -/
theorem c6_explored_monotone (ex : Explore) (ops : List FogOp) (m : MapFog) (q : IntPoint)
    (h : m.explored q = true) :
    (ops.foldl (applyFogOp ex) m).explored q = true := by
  induction ops generalizing m with
  | nil => exact h
  | cons op rest ih =>
    simp only [List.foldl_cons]
    refine ih _ ?_
    cases op with
    | tile p fogOnly => exact exploreTile_explored_mono m p fogOnly q h
    | chunk pos range los => exact exploreMapChunk_explored_mono ex m pos range los q h
    | fog c sweeps => exact updateFog_explored_mono ex m c sweeps q h

/-- Concrete mask service for the fog witnesses. -/
def cxExplore : Explore := ⟨2, fun i _ => ⟨(i : Int), 0⟩⟩

/-- Concrete fog state: a 2x2 fog raster with the origin cell explored. -/
def cxFog : MapFog :=
  ⟨⟨2, 2⟩, fun q => decide (q = ⟨0, 0⟩), fun _ => false, ⟨⟨4, 4⟩, fun _ => 1⟩, false, false⟩

/-- C6 witness: a concrete operation sequence over the concrete fog state
keeps the origin cell explored. -/
theorem c6_explored_monotone_witness :
    cxFog.explored ⟨0, 0⟩ = true ∧
      ((([FogOp.tile ⟨1, 1⟩ false, FogOp.chunk ⟨0, 0⟩ 2 true,
          FogOp.fog false [(⟨1, 1⟩, 1)]]).foldl (applyFogOp cxExplore) cxFog).explored
        ⟨0, 0⟩ = true) :=
  ⟨by decide,
    c6_explored_monotone cxExplore
      [FogOp.tile ⟨1, 1⟩ false, FogOp.chunk ⟨0, 0⟩ 2 true, FogOp.fog false [(⟨1, 1⟩, 1)]]
      cxFog ⟨0, 0⟩ (by decide)⟩

/-- Modelled from the spec: one fog bitmap (`Bitmap`, outside `src/`): a size
and one bit per fog cell, with `GetAt(p, default)` returning the stored bit
inside bounds and the supplied default outside. -/
structure FogBitmap where
  size : GSize
  bits : IntPoint → Bool

/-- `Bitmap::GetAt` with an out-of-bounds default. -/
def bitmapGetAt (b : FogBitmap) (p : IntPoint) (oob : Bool) : Bool :=
  if b.size.pointInside p then b.bits p else oob

/-- Modelled from the spec: navmap-to-fog-cell conversion used by
`Map::FogTileUncovered` (the `FogPoint(Point)` conversion is declared outside
`src/`); a fog cell covers one fixed pixel block. -/
def fogPointOfNav (p : IntPoint) : IntPoint := ⟨Int.tdiv p.x 32, Int.tdiv p.y 32⟩

/-- `Map::FogTileUncovered`: a null mask reports the point uncovered;
otherwise the stored bit with out-of-bounds defaulting to `false`
("out of bounds is always foggy"). -/
def fogTileUncovered (mask : Option FogBitmap) (p : IntPoint) : Bool :=
  match mask with
  | none => true
  | some b => bitmapGetAt b (fogPointOfNav p) false

/-- The visible bitmap of a fog state, as passed to `FogTileUncovered`. -/
def mapVisibleBitmap (m : MapFog) : FogBitmap := ⟨m.fogSize, m.visible⟩

/-- The explored bitmap of a fog state, as passed to `FogTileUncovered`. -/
def mapExploredBitmap (m : MapFog) : FogBitmap := ⟨m.fogSize, m.explored⟩

/-- `Map::IsVisible`: `FogTileUncovered(pos, &VisibleBitmap)`; the address of
the member bitmap is never null. -/
def isVisible (m : MapFog) (p : IntPoint) : Bool :=
  fogTileUncovered (some (mapVisibleBitmap m)) p

/-- `Map::IsExplored`: `FogTileUncovered(pos, &ExploredBitmap)`. -/
def isExplored (m : MapFog) (p : IntPoint) : Bool :=
  fogTileUncovered (some (mapExploredBitmap m)) p

/-- C7: a null fog bitmap pointer reports every point uncovered; with a
bitmap present, a point mapping to a fog cell outside the bitmap bounds is
reported foggy (`false`), and otherwise the stored bit is returned;
`IsVisible` and `IsExplored` are exactly `FogTileUncovered` on the map's
(never-null) visible and explored bitmaps. -/
theorem c7_fog_query_cases (m : MapFog) (b : FogBitmap) (p : IntPoint) :
    fogTileUncovered none p = true ∧
    (b.size.pointInside (fogPointOfNav p) = false → fogTileUncovered (some b) p = false) ∧
    (b.size.pointInside (fogPointOfNav p) = true →
      fogTileUncovered (some b) p = b.bits (fogPointOfNav p)) ∧
    isVisible m p = fogTileUncovered (some (mapVisibleBitmap m)) p ∧
    isExplored m p = fogTileUncovered (some (mapExploredBitmap m)) p := by
  refine ⟨rfl, fun h => ?_, fun h => ?_, rfl, rfl⟩
  · simp [fogTileUncovered, bitmapGetAt, h]
  · simp [fogTileUncovered, bitmapGetAt, h]

/-- Concrete fog bitmap for the C7 witness: 2x2, origin bit set. -/
def cxBitmap : FogBitmap := ⟨⟨2, 2⟩, fun q => decide (q = ⟨0, 0⟩)⟩

/-- C7 witness: the query-case theorem applied at concrete inputs, with the
out-of-bounds and in-bounds hypotheses discharged at distinct points. -/
theorem c7_fog_query_cases_witness :
    (cxBitmap.size.pointInside (fogPointOfNav ⟨100, 0⟩) = false ∧
      fogTileUncovered (some cxBitmap) ⟨100, 0⟩ = false) ∧
    (cxBitmap.size.pointInside (fogPointOfNav ⟨0, 0⟩) = true ∧
      fogTileUncovered (some cxBitmap) ⟨0, 0⟩ = cxBitmap.bits (fogPointOfNav ⟨0, 0⟩)) :=
  ⟨⟨by decide, (c7_fog_query_cases cxFog cxBitmap ⟨100, 0⟩).2.1 (by decide)⟩,
    ⟨by decide, (c7_fog_query_cases cxFog cxBitmap ⟨0, 0⟩).2.2.1 (by decide)⟩⟩

/-- Screen-space rectangle (GemRB `Region`): signed origin and size. -/
structure WRegion where
  x : Int
  y : Int
  w : Int
  h : Int
deriving DecidableEq

/-- Modelled from the spec: `Region::IntersectsRegion` (Region.h, outside
`src/`): the strict rectangle-overlap test used for the bounding-box filter. -/
def intersectsRegion (a b : WRegion) : Bool :=
  decide (a.x < b.x + b.w) && decide (b.x < a.x + a.w) &&
    decide (a.y < b.y + b.h) && decide (b.y < a.y + a.h)

/-- A point lying inside a rectangle, for stating the partition claims. -/
def pointInRegion (q : IntPoint) (r : WRegion) : Prop :=
  r.x ≤ q.x ∧ q.x < r.x + r.w ∧ r.y ≤ q.y ∧ q.y < r.y + r.h

instance (q : IntPoint) (r : WRegion) : Decidable (pointInRegion q r) := by
  unfold pointInRegion
  infer_instance

/-- Modelled from the spec: the `WF_DISABLED` wall-flag bit (declared outside
`src/`). -/
def wfDISABLED : Nat := 8

/-- A static wall polygon as the partitioning reads it: bounding box, flags
and the baseline endpoints. -/
structure Wall where
  bbox : WRegion
  wallFlag : Nat
  base0 : IntPoint
  base1 : IntPoint
deriving DecidableEq

/-- Modelled from the spec: `WallPolygon::PointBehind` (Polygon.cpp, outside
`src/`): the half-plane test of a point against the wall's baseline. -/
def pointBehind (w : Wall) (p : IntPoint) : Bool :=
  decide (0 ≤ (w.base1.x - w.base0.x) * (p.y - w.base0.y) -
    (w.base1.y - w.base0.y) * (p.x - w.base0.x))

/-- The wall-bucket grid of one map: tile cell counts (64-pixel background
tiles) and the bucket vector indexed by `y * pitch + x`. -/
structure WallMap where
  xCellCount : Nat
  yCellCount : Nat
  wallGroups : Nat → List Wall

/-- The negative-origin clamp at the top of `Map::WallsIntersectingRegion`. -/
def clampRegion (r : WRegion) : WRegion :=
  let r1 := if r.x < 0 then { r with w := r.w + r.x, x := 0 } else r
  if r1.y < 0 then { r1 with h := r1.h + r1.y, y := 0 } else r1

/-- GemRB `CeilDiv` on unsigned values. -/
def ceilDivNat (a b : Nat) : Nat := (a + b - 1) / b

/-- Bucket height constant of `Map::WallsIntersectingRegion`. -/
def groupHeight : Nat := 480

/-- Bucket width constant of `Map::WallsIntersectingRegion`. -/
def groupWidth : Nat := 640

/-- Bucket-grid pitch: `CeilDiv(XCellCount * 64, groupWidth)`. -/
def wirPitch (wm : WallMap) : Nat := ceilDivNat (wm.xCellCount * 64) groupWidth

/-- Bucket-grid height bound: `CeilDiv(YCellCount * 64, groupHeight)`. -/
def wirMaxHeight (wm : WallMap) : Nat := ceilDivNat (wm.yCellCount * 64) groupHeight

/-- First visited bucket row (`r.y / groupHeight` after the clamp). -/
def wirYmin (r : WRegion) : Nat := toU32 (clampRegion r).y / groupHeight

/-- One-past-last visited bucket row. -/
def wirYmax (wm : WallMap) (r : WRegion) : Nat :=
  min (wirMaxHeight wm)
    (ceilDivNat (toU32 ((clampRegion r).y + (clampRegion r).h)) groupHeight)

/-- First visited bucket column. -/
def wirXmin (r : WRegion) : Nat := toU32 (clampRegion r).x / groupWidth

/-- One-past-last visited bucket column. -/
def wirXmax (wm : WallMap) (r : WRegion) : Nat :=
  min (wirPitch wm)
    (ceilDivNat (toU32 ((clampRegion r).x + (clampRegion r).w)) groupWidth)

/-- Skip test of the collection loop:
`(wp->wallFlag & WF_DISABLED) && includeDisabled == false`. -/
def wallSkipped (includeDisabled : Bool) (wp : Wall) : Bool :=
  decide (wp.wallFlag &&& wfDISABLED ≠ 0) && !includeDisabled

/-- Side selection: a wall goes to the in-front group when no reference point
is supplied or the point is behind the wall's baseline
(`loc == nullptr || wp->PointBehind(*loc)`). -/
def wallInFront (loc : Option IntPoint) (wp : Wall) : Bool :=
  match loc with
  | none => true
  | some l => pointBehind wp l

/-- Body of the collection loop of `Map::WallsIntersectingRegion` for one wall
reference of one visited bucket. -/
def collectWall (r : WRegion) (includeDisabled : Bool) (loc : Option IntPoint)
    (acc : List Wall × List Wall) (wp : Wall) : List Wall × List Wall :=
  if wallSkipped includeDisabled wp then acc
  else if !intersectsRegion r wp.bbox then acc
  else if wallInFront loc wp then (acc.1 ++ [wp], acc.2) else (acc.1, acc.2 ++ [wp])

/-- The bucket indices visited by the double loop, in iteration order. -/
def wirBuckets (wm : WallMap) (r : WRegion) : List Nat :=
  ((List.range' (wirYmin r) (wirYmax wm r - wirYmin r)).map (fun y =>
    (List.range' (wirXmin r) (wirXmax wm r - wirXmin r)).map (fun x =>
      y * wirPitch wm + x))).flatten

/-- `Map::WallsIntersectingRegion`: clamp the region, visit the overlapping
buckets in order and partition every passing wall reference into the
(in-front, behind) pair. -/
def wallsIntersectingRegion (wm : WallMap) (r : WRegion) (includeDisabled : Bool)
    (loc : Option IntPoint) : List Wall × List Wall :=
  ((wirBuckets wm r).map wm.wallGroups).foldl
    (fun acc g => g.foldl (collectWall (clampRegion r) includeDisabled loc) acc) ([], [])

/-- The in-front filter predicate realized by the collection loop. -/
def predFront (r : WRegion) (includeDisabled : Bool) (loc : Option IntPoint)
    (wp : Wall) : Bool :=
  !wallSkipped includeDisabled wp && intersectsRegion r wp.bbox && wallInFront loc wp

/-- The behind filter predicate realized by the collection loop. -/
def predBehind (r : WRegion) (includeDisabled : Bool) (loc : Option IntPoint)
    (wp : Wall) : Bool :=
  !wallSkipped includeDisabled wp && intersectsRegion r wp.bbox && !wallInFront loc wp

theorem foldl_collectWall_eq (r : WRegion) (inc : Bool) (loc : Option IntPoint)
    (g : List Wall) :
    ∀ acc : List Wall × List Wall,
      g.foldl (collectWall r inc loc) acc =
        (acc.1 ++ g.filter (predFront r inc loc), acc.2 ++ g.filter (predBehind r inc loc)) := by
  induction g with
  | nil => intro acc; simp
  | cons w0 rest ih =>
    intro acc
    simp only [List.foldl_cons, ih, List.filter_cons]
    unfold collectWall predFront predBehind
    by_cases h1 : wallSkipped inc w0 = true
    · simp [h1]
    · simp only [Bool.not_eq_true] at h1
      by_cases h2 : intersectsRegion r w0.bbox = true
      · by_cases h3 : wallInFront loc w0 = true
        · simp [h1, h2, h3]
        · simp only [Bool.not_eq_true] at h3
          simp [h1, h2, h3]
      · simp only [Bool.not_eq_true] at h2
        simp [h1, h2]

theorem wallsIntersectingRegion_eq (wm : WallMap) (r : WRegion) (inc : Bool)
    (loc : Option IntPoint) :
    wallsIntersectingRegion wm r inc loc =
      (((wirBuckets wm r).map
          (fun i => (wm.wallGroups i).filter (predFront (clampRegion r) inc loc))).flatten,
        ((wirBuckets wm r).map
          (fun i => (wm.wallGroups i).filter (predBehind (clampRegion r) inc loc))).flatten) := by
  unfold wallsIntersectingRegion
  generalize wirBuckets wm r = idxs
  have main : ∀ (idxs : List Nat) (acc : List Wall × List Wall),
      (idxs.map wm.wallGroups).foldl
          (fun acc g => g.foldl (collectWall (clampRegion r) inc loc) acc) acc =
        (acc.1 ++ (idxs.map
            (fun i => (wm.wallGroups i).filter (predFront (clampRegion r) inc loc))).flatten,
          acc.2 ++ (idxs.map
            (fun i => (wm.wallGroups i).filter (predBehind (clampRegion r) inc loc))).flatten) := by
    intro idxs
    induction idxs with
    | nil => intro acc; simp
    | cons i rest ih =>
      intro acc
      simp only [List.map_cons, List.foldl_cons, List.flatten_cons]
      rw [foldl_collectWall_eq, ih]
      simp [List.append_assoc]
  rw [main]
  simp

theorem toU32_eq_toNat (z : Int) (h0 : 0 ≤ z) (h1 : z < 4294967296) : toU32 z = z.toNat := by
  unfold toU32
  rw [Int.emod_eq_of_lt h0 h1]

theorem clampRegion_x (r : WRegion) :
    (clampRegion r).x = max r.x 0 ∧ (clampRegion r).x + (clampRegion r).w = r.x + r.w := by
  unfold clampRegion
  by_cases h1 : r.x < 0 <;> by_cases h2 : r.y < 0 <;>
    simp only [h1, h2, if_true, if_false] <;> constructor <;> simp <;> omega

theorem clampRegion_y (r : WRegion) :
    (clampRegion r).y = max r.y 0 ∧ (clampRegion r).y + (clampRegion r).h = r.y + r.h := by
  unfold clampRegion
  by_cases h1 : r.x < 0 <;> by_cases h2 : r.y < 0 <;>
    simp only [h1, h2, if_true, if_false] <;> constructor <;> simp <;> omega

theorem intersects_of_common_point (q : IntPoint) (a b : WRegion)
    (ha : pointInRegion q a) (hb : pointInRegion q b) : intersectsRegion a b = true := by
  unfold pointInRegion at ha hb
  unfold intersectsRegion
  simp only [Bool.and_eq_true, decide_eq_true_eq]
  omega

theorem pointInRegion_clamp (q : IntPoint) (r : WRegion) (h : pointInRegion q r)
    (hx : 0 ≤ q.x) (hy : 0 ≤ q.y) : pointInRegion q (clampRegion r) := by
  have hcx := clampRegion_x r
  have hcy := clampRegion_y r
  unfold pointInRegion at h ⊢
  omega

theorem bucket_mem (wm : WallMap) (r : WRegion) (q : IntPoint)
    (hov1 : r.x + r.w < 2147483648) (hov2 : r.y + r.h < 2147483648)
    (hmw : (wm.xCellCount : Int) * 64 < 2147483648)
    (hmh : (wm.yCellCount : Int) * 64 < 2147483648)
    (hqr : pointInRegion q r)
    (hqmx : 0 ≤ q.x ∧ q.x < (wm.xCellCount : Int) * 64)
    (hqmy : 0 ≤ q.y ∧ q.y < (wm.yCellCount : Int) * 64) :
    (q.y.toNat / groupHeight) * wirPitch wm + q.x.toNat / groupWidth ∈ wirBuckets wm r := by
  obtain ⟨hrx, hrxw, hry, hryh⟩ := hqr
  obtain ⟨hqx0, hqx1⟩ := hqmx
  obtain ⟨hqy0, hqy1⟩ := hqmy
  have hcx := clampRegion_x r
  have hcy := clampRegion_y r
  have hymin : wirYmin r ≤ q.y.toNat / groupHeight := by
    unfold wirYmin
    rw [hcy.1, toU32_eq_toNat _ (by omega) (by omega)]
    unfold groupHeight
    omega
  have hymax : q.y.toNat / groupHeight < wirYmax wm r := by
    unfold wirYmax wirMaxHeight ceilDivNat groupHeight
    rw [hcy.2, toU32_eq_toNat _ (by omega) (by omega)]
    omega
  have hxmin : wirXmin r ≤ q.x.toNat / groupWidth := by
    unfold wirXmin
    rw [hcx.1, toU32_eq_toNat _ (by omega) (by omega)]
    unfold groupWidth
    omega
  have hxmax : q.x.toNat / groupWidth < wirXmax wm r := by
    unfold wirXmax wirPitch ceilDivNat groupWidth
    rw [hcx.2, toU32_eq_toNat _ (by omega) (by omega)]
    omega
  unfold wirBuckets
  rw [List.mem_flatten]
  refine ⟨(List.range' (wirXmin r) (wirXmax wm r - wirXmin r)).map
      (fun x => (q.y.toNat / groupHeight) * wirPitch wm + x), ?_, ?_⟩
  · exact List.mem_map_of_mem _ (List.mem_range'_1.2 ⟨hymin, by omega⟩)
  · exact List.mem_map_of_mem _ (List.mem_range'_1.2 ⟨hxmin, by omega⟩)

theorem mem_front_iff (wm : WallMap) (r : WRegion) (inc : Bool) (loc : Option IntPoint)
    (wp : Wall) :
    wp ∈ (wallsIntersectingRegion wm r inc loc).1 ↔
      (∃ i ∈ wirBuckets wm r, wp ∈ wm.wallGroups i) ∧
        predFront (clampRegion r) inc loc wp = true := by
  rw [wallsIntersectingRegion_eq]
  simp only [List.mem_flatten, List.mem_map]
  constructor
  · rintro ⟨l, ⟨i, hi, rfl⟩, hw⟩
    rw [List.mem_filter] at hw
    exact ⟨⟨i, hi, hw.1⟩, hw.2⟩
  · rintro ⟨⟨i, hi, hw⟩, hp⟩
    exact ⟨_, ⟨i, hi, rfl⟩, List.mem_filter.2 ⟨hw, hp⟩⟩

theorem mem_behind_iff (wm : WallMap) (r : WRegion) (inc : Bool) (loc : Option IntPoint)
    (wp : Wall) :
    wp ∈ (wallsIntersectingRegion wm r inc loc).2 ↔
      (∃ i ∈ wirBuckets wm r, wp ∈ wm.wallGroups i) ∧
        predBehind (clampRegion r) inc loc wp = true := by
  rw [wallsIntersectingRegion_eq]
  simp only [List.mem_flatten, List.mem_map]
  constructor
  · rintro ⟨l, ⟨i, hi, rfl⟩, hw⟩
    rw [List.mem_filter] at hw
    exact ⟨⟨i, hi, hw.1⟩, hw.2⟩
  · rintro ⟨⟨i, hi, hw⟩, hp⟩
    exact ⟨_, ⟨i, hi, rfl⟩, List.mem_filter.2 ⟨hw, hp⟩⟩

/-- C8: for a wall registered in the bucket of a common point of the (in-map)
query region and the wall's bounding box, the partition is exhaustive and
disjoint — a non-skipped wall lands in exactly one of the in-front and behind
groups — and a disabled wall with `includeDisabled` unset appears in
neither group. -/
theorem c8_wall_partition (wm : WallMap) (r : WRegion) (includeDisabled : Bool)
    (loc : Option IntPoint) (wp : Wall) (q : IntPoint)
    (hov1 : r.x + r.w < 2147483648) (hov2 : r.y + r.h < 2147483648)
    (hmw : (wm.xCellCount : Int) * 64 < 2147483648)
    (hmh : (wm.yCellCount : Int) * 64 < 2147483648)
    (hqr : pointInRegion q r) (hqb : pointInRegion q wp.bbox)
    (hqmx : 0 ≤ q.x ∧ q.x < (wm.xCellCount : Int) * 64)
    (hqmy : 0 ≤ q.y ∧ q.y < (wm.yCellCount : Int) * 64)
    (hreg : wp ∈ wm.wallGroups
      ((q.y.toNat / groupHeight) * wirPitch wm + q.x.toNat / groupWidth)) :
    (wallSkipped includeDisabled wp = false →
      (wp ∈ (wallsIntersectingRegion wm r includeDisabled loc).1 ∧
          wp ∉ (wallsIntersectingRegion wm r includeDisabled loc).2) ∨
        (wp ∈ (wallsIntersectingRegion wm r includeDisabled loc).2 ∧
          wp ∉ (wallsIntersectingRegion wm r includeDisabled loc).1)) ∧
    (wallSkipped includeDisabled wp = true →
      wp ∉ (wallsIntersectingRegion wm r includeDisabled loc).1 ∧
        wp ∉ (wallsIntersectingRegion wm r includeDisabled loc).2) := by
  have hmem : (q.y.toNat / groupHeight) * wirPitch wm + q.x.toNat / groupWidth ∈
      wirBuckets wm r := bucket_mem wm r q hov1 hov2 hmw hmh hqr hqmx hqmy
  have hint : intersectsRegion (clampRegion r) wp.bbox = true :=
    intersects_of_common_point q _ _ (pointInRegion_clamp q r hqr hqmx.1 hqmy.1) hqb
  constructor
  · intro hskip
    by_cases hf : wallInFront loc wp = true
    · left
      constructor
      · exact (mem_front_iff wm r includeDisabled loc wp).2
          ⟨⟨_, hmem, hreg⟩, by simp [predFront, hskip, hint, hf]⟩
      · intro hcontra
        have h2 := ((mem_behind_iff wm r includeDisabled loc wp).1 hcontra).2
        simp [predBehind, hf] at h2
    · right
      simp only [Bool.not_eq_true] at hf
      constructor
      · exact (mem_behind_iff wm r includeDisabled loc wp).2
          ⟨⟨_, hmem, hreg⟩, by simp [predBehind, hskip, hint, hf]⟩
      · intro hcontra
        have h2 := ((mem_front_iff wm r includeDisabled loc wp).1 hcontra).2
        simp [predFront, hf] at h2
  · intro hskip
    constructor <;> intro hcontra
    · have h2 := ((mem_front_iff wm r includeDisabled loc wp).1 hcontra).2
      simp [predFront, hskip] at h2
    · have h2 := ((mem_behind_iff wm r includeDisabled loc wp).1 hcontra).2
      simp [predBehind, hskip] at h2

/-- C10: when no reference point is supplied, the behind group is always
empty, and any wall passing the disabled-flag filter that is registered in
the bucket of a common point of the region and its bounding box is placed in
the in-front group. -/
theorem c10_null_reference_point (wm : WallMap) (r : WRegion) (includeDisabled : Bool)
    (wp : Wall) (q : IntPoint)
    (hov1 : r.x + r.w < 2147483648) (hov2 : r.y + r.h < 2147483648)
    (hmw : (wm.xCellCount : Int) * 64 < 2147483648)
    (hmh : (wm.yCellCount : Int) * 64 < 2147483648)
    (hqr : pointInRegion q r) (hqb : pointInRegion q wp.bbox)
    (hqmx : 0 ≤ q.x ∧ q.x < (wm.xCellCount : Int) * 64)
    (hqmy : 0 ≤ q.y ∧ q.y < (wm.yCellCount : Int) * 64)
    (hreg : wp ∈ wm.wallGroups
      ((q.y.toNat / groupHeight) * wirPitch wm + q.x.toNat / groupWidth))
    (hskip : wallSkipped includeDisabled wp = false) :
    (wallsIntersectingRegion wm r includeDisabled none).2 = [] ∧
      wp ∈ (wallsIntersectingRegion wm r includeDisabled none).1 := by
  constructor
  · rw [wallsIntersectingRegion_eq]
    simp [predBehind, wallInFront, List.filter_eq_nil_iff]
  · have hmem : (q.y.toNat / groupHeight) * wirPitch wm + q.x.toNat / groupWidth ∈
        wirBuckets wm r := bucket_mem wm r q hov1 hov2 hmw hmh hqr hqmx hqmy
    have hint : intersectsRegion (clampRegion r) wp.bbox = true :=
      intersects_of_common_point q _ _ (pointInRegion_clamp q r hqr hqmx.1 hqmy.1) hqb
    exact (mem_front_iff wm r includeDisabled none wp).2
      ⟨⟨_, hmem, hreg⟩, by simp [predFront, hskip, hint, wallInFront]⟩

/-- Concrete enabled wall for the partition witnesses. -/
def cxWall : Wall := ⟨⟨0, 0, 64, 64⟩, 0, ⟨0, 0⟩, ⟨10, 0⟩⟩

/-- Concrete disabled wall for the partition witnesses. -/
def cxWallDisabled : Wall := ⟨⟨0, 0, 64, 64⟩, wfDISABLED, ⟨0, 0⟩, ⟨10, 0⟩⟩

/-- Concrete bucket grid holding both walls in bucket 0 (map of 10x8
64-pixel tiles). -/
def cxWallMap : WallMap := ⟨10, 8, fun i => if i = 0 then [cxWall, cxWallDisabled] else []⟩

/-- Concrete query region for the partition witnesses. -/
def cxRegion : WRegion := ⟨0, 0, 100, 100⟩

/-- C8 witness: the partition theorem applied at the concrete map, region,
reference point and both walls, discharging every hypothesis. -/
theorem c8_wall_partition_witness :
    (wallSkipped false cxWall = false ∧
      ((cxWall ∈ (wallsIntersectingRegion cxWallMap cxRegion false (some ⟨0, 0⟩)).1 ∧
          cxWall ∉ (wallsIntersectingRegion cxWallMap cxRegion false (some ⟨0, 0⟩)).2) ∨
        (cxWall ∈ (wallsIntersectingRegion cxWallMap cxRegion false (some ⟨0, 0⟩)).2 ∧
          cxWall ∉ (wallsIntersectingRegion cxWallMap cxRegion false (some ⟨0, 0⟩)).1))) ∧
    (wallSkipped false cxWallDisabled = true ∧
      (cxWallDisabled ∉ (wallsIntersectingRegion cxWallMap cxRegion false (some ⟨0, 0⟩)).1 ∧
        cxWallDisabled ∉ (wallsIntersectingRegion cxWallMap cxRegion false (some ⟨0, 0⟩)).2)) :=
  ⟨⟨by decide,
      (c8_wall_partition cxWallMap cxRegion false (some ⟨0, 0⟩) cxWall ⟨5, 5⟩ (by decide)
          (by decide) (by decide) (by decide) (by decide) (by decide) (by decide) (by decide)
          (by decide)).1 (by decide)⟩,
    ⟨by decide,
      (c8_wall_partition cxWallMap cxRegion false (some ⟨0, 0⟩) cxWallDisabled ⟨5, 5⟩
          (by decide) (by decide) (by decide) (by decide) (by decide) (by decide) (by decide)
          (by decide) (by decide)).2 (by decide)⟩⟩

/-- C10 witness: the null-reference theorem applied at the concrete map and
region. -/
theorem c10_null_reference_point_witness :
    wallSkipped false cxWall = false ∧
      ((wallsIntersectingRegion cxWallMap cxRegion false none).2 = [] ∧
        cxWall ∈ (wallsIntersectingRegion cxWallMap cxRegion false none).1) :=
  ⟨by decide,
    c10_null_reference_point cxWallMap cxRegion false cxWall ⟨5, 5⟩ (by decide) (by decide)
      (by decide) (by decide) (by decide) (by decide) (by decide) (by decide) (by decide)
      (by decide)⟩

end GemRB
